import Mathlib

/-!
Verification development for the ClawChat encrypted messaging client.

The definitions below are a shallow embedding of the TypeScript source:
the chat store (Zustand store in the app), the Matrix client facade
(ClawChatClient), the standalone crypto manager (CryptoManager), and the
AI bot message handler.  Pure functions become Lean functions; stateful
methods become explicit state-passing functions; methods that throw
become Except-valued functions; calls into external collaborators
(network, SDK) are modelled by passing their results as parameters and
by recording the emitted operations in an explicit trace.
-/

namespace ClawChat

/-! ## Data model (Message, Room) — from the Matrix client module. -/

/-- The Message entity handed to the UI store.  The source field `type`
(text, image, file, notice) is named `msgKind` because `type` is a Lean
keyword. -/
structure Message where
  id : String
  roomId : String
  sender : String
  senderName : String
  body : String
  timestamp : Nat
  msgKind : String
  isMe : Bool
  encrypted : Bool
  verified : Bool
deriving DecidableEq, Repr

/-- The Room summary entity. -/
structure Room where
  id : String
  name : String
  topic : Option String
  isDirect : Bool
  lastMessage : Option Message
  unreadCount : Nat
  encrypted : Bool
deriving DecidableEq, Repr

/-! ## Chat store — from the Zustand chat store (useChatStore). -/

/-- State of the chat store.  `messages` is the per-room message map,
modelled as a function from roomId to the ordered message list, matching
the JS object keyed by roomId. -/
structure ChatState where
  rooms : List Room
  currentRoomId : Option String
  messages : String → List Message
  isLoading : Bool
  isSending : Bool
  error : Option String
  e2eeEnabled : Bool

/-- The initial store state: empty rooms, no current room, empty map. -/
def initialChatState : ChatState :=
  { rooms := []
  , currentRoomId := none
  , messages := fun _ => []
  , isLoading := false
  , isSending := false
  , error := none
  , e2eeEnabled := false }

/-- The onMessage callback registered by `initialize`: append the message
to its room list only when no message with that id is already present. -/
def onMessage (state : ChatState) (message : Message) : ChatState :=
  let roomMessages := state.messages message.roomId
  if roomMessages.any (fun m => m.id == message.id) then state
  else
    { state with
        messages := fun r =>
          if r = message.roomId then roomMessages ++ [message]
          else state.messages r }

/-- The success path of the `loadMessages` action: replace the room list
with the list fetched from the client and clear the loading flag. -/
def loadMessagesOk (state : ChatState) (roomId : String)
    (fetched : List Message) : ChatState :=
  { state with
      isLoading := false
      messages := fun r => if r = roomId then fetched else state.messages r }

/-- The failure path of the `loadMessages` action. -/
def loadMessagesErr (state : ChatState) (msg : String) : ChatState :=
  { state with isLoading := false, error := some msg }

/-- The `sendMessage` action: it only toggles `isSending` and `error`
(the message itself reaches the store later through the sync callback);
it is a no-op when no current room is set or the text is blank.  `ok` is
the outcome of the network send, `errMsg` the reported failure. -/
def sendMessageAction (state : ChatState) (text : String) (ok : Bool)
    (errMsg : String) : ChatState :=
  match state.currentRoomId with
  | none => state
  | some _ =>
    if text.trim = "" then state
    else if ok then { state with isSending := false }
    else { state with isSending := false, error := some errMsg }

/-- The `sendImage` action: same state effect shape as `sendMessage`. -/
def sendImageAction (state : ChatState) (ok : Bool) (errMsg : String) :
    ChatState :=
  match state.currentRoomId with
  | none => state
  | some _ =>
    if ok then { state with isSending := false }
    else { state with isSending := false, error := some errMsg }

/-- The `refresh` action: replace the rooms list with the client result. -/
def refreshAction (state : ChatState) (rooms : List Room) : ChatState :=
  { state with rooms := rooms }

/-- The `setCurrentRoomId` action. -/
def setCurrentRoomIdAction (state : ChatState) (roomId : Option String) :
    ChatState :=
  { state with currentRoomId := roomId }

/-- The `checkE2EEStatus` action. -/
def checkE2EEStatusAction (state : ChatState) (enabled : Bool) : ChatState :=
  { state with e2eeEnabled := enabled }

/-- The no-duplicate-id invariant: in every room list of the store, each
message id occurs at most once. -/
def ChatInvariant (state : ChatState) : Prop :=
  ∀ roomId : String, ((state.messages roomId).map Message.id).Nodup

theorem initialChatState_invariant : ChatInvariant initialChatState := by
  intro r
  simp [initialChatState]

theorem onMessage_invariant (s : ChatState) (hs : ChatInvariant s)
    (m : Message) : ChatInvariant (onMessage s m) := by
  intro r
  unfold onMessage
  by_cases hdup : (s.messages m.roomId).any (fun x => x.id == m.id)
  · simpa [hdup] using hs r
  · simp only [hdup, Bool.false_eq_true, if_false]
    by_cases hr : r = m.roomId
    · subst hr
      rw [if_pos rfl]
      simp only [List.map_append, List.map_cons, List.map_nil]
      rw [List.nodup_append]
      refine ⟨hs m.roomId, List.nodup_singleton _, ?_⟩
      intro a ha
      simp only [List.mem_singleton]
      intro hcon
      subst hcon
      rcases List.mem_map.mp ha with ⟨x, hx, hxid⟩
      apply hdup
      rw [List.any_eq_true]
      exact ⟨x, hx, by simp [hxid]⟩
    · simpa [hr] using hs r

theorem foldl_onMessage_invariant (s : ChatState) (hs : ChatInvariant s)
    (incoming : List Message) :
    ChatInvariant (incoming.foldl onMessage s) := by
  induction incoming generalizing s with
  | nil => simpa using hs
  | cons m rest ih =>
    simpa using ih (onMessage s m) (onMessage_invariant s hs m)

theorem loadMessagesOk_invariant (s : ChatState) (roomId : String)
    (fetched : List Message)
    (hfetched : (fetched.map Message.id).Nodup) (hs : ChatInvariant s) :
    ChatInvariant (loadMessagesOk s roomId fetched) := by
  intro r
  unfold loadMessagesOk
  by_cases hr : r = roomId
  · simpa [hr] using hfetched
  · simpa [hr] using hs r

/-- A sample message used to instantiate theorems at concrete inputs. -/
def sampleMessage (i : String) : Message :=
  { id := i
  , roomId := "!room:server"
  , sender := "@alice:server"
  , senderName := "alice"
  , body := "hi"
  , timestamp := 1
  , msgKind := "text"
  , isMe := false
  , encrypted := false
  , verified := false }

/-- C1: for every sequence of incoming message callbacks delivered to the
chat store, including duplicates carrying the same event id, the per-room
message list contains each message id at most once: the onMessage handler
appends only when the id is absent, and every other store action
preserves the no-duplicate-id invariant (for `loadMessages`, given that
the list fetched from the single server timeline has pairwise distinct
event ids). -/
theorem chatStore_no_duplicate_message_ids
    (incoming : List Message)
    (s : ChatState) (hs : ChatInvariant s) (m : Message)
    (roomId : String) (fetched : List Message)
    (hfetched : (fetched.map Message.id).Nodup)
    (rooms : List Room) (text : String) (ok : Bool) (err : String) :
    ChatInvariant (incoming.foldl onMessage initialChatState) ∧
    ChatInvariant (onMessage s m) ∧
    ChatInvariant (loadMessagesOk s roomId fetched) ∧
    ChatInvariant (loadMessagesErr s err) ∧
    ChatInvariant (sendMessageAction s text ok err) ∧
    ChatInvariant (sendImageAction s ok err) ∧
    ChatInvariant (refreshAction s rooms) ∧
    ChatInvariant (setCurrentRoomIdAction s (some roomId)) ∧
    ChatInvariant (checkE2EEStatusAction s ok) := by
  refine ⟨foldl_onMessage_invariant initialChatState initialChatState_invariant incoming,
    onMessage_invariant s hs m,
    loadMessagesOk_invariant s roomId fetched hfetched hs,
    fun r => hs r, ?_, ?_, fun r => hs r, fun r => hs r, fun r => hs r⟩
  · intro r
    unfold sendMessageAction
    cases s.currentRoomId with
    | none => exact hs r
    | some rid =>
      by_cases ht : text.trim = "" <;> cases ok <;> simp [ht] <;> exact hs r
  · intro r
    unfold sendImageAction
    cases s.currentRoomId with
    | none => exact hs r
    | some rid => cases ok <;> simp <;> exact hs r

/-- Witness for C1 at a concrete duplicate-bearing callback sequence. -/
theorem chatStore_no_duplicate_message_ids_witness :
    ChatInvariant
      ([sampleMessage "e1", sampleMessage "e1",
        sampleMessage "e2"].foldl onMessage initialChatState) ∧
    ChatInvariant (onMessage initialChatState (sampleMessage "e1")) := by
  have h := chatStore_no_duplicate_message_ids
    [sampleMessage "e1", sampleMessage "e1", sampleMessage "e2"]
    initialChatState initialChatState_invariant (sampleMessage "e1")
    "!room:server" [sampleMessage "e1", sampleMessage "e2"] (by decide)
    [] "hi" true "send failed"
  exact ⟨h.1, h.2.1⟩

/-! ## Matrix client facade — from ClawChatClient. -/

namespace Client

/-- A joined room member as returned by getJoinedMembers. -/
structure RoomMember where
  userId : String
deriving DecidableEq, Repr

/-- An SDK-level room as enumerated by this.client.getRooms(). -/
structure SdkRoom where
  roomId : String
  joinedMembers : List RoomMember
deriving DecidableEq, Repr

/-- The client-facade state the modelled operations read and write:
whether this.client is non-null, and the room list the SDK exposes. -/
structure ClientState where
  hasClient : Bool
  rooms : List SdkRoom
deriving DecidableEq, Repr

/-- The existing-DM test used in the loop of getOrCreateBotRoom:
members.length === 2 and some member is the bot user. -/
def isBotDM (botUserId : String) (room : SdkRoom) : Bool :=
  room.joinedMembers.length == 2 &&
    room.joinedMembers.any (fun m => m.userId == botUserId)

/-- getOrCreateBotRoom: throw when the client is null; otherwise return
the first room (in enumeration order) that is a two-member DM with the
bot; otherwise create a fresh direct room (invite pending, so only the
creator is joined at creation time). -/
def getOrCreateBotRoom (st : ClientState) (botUserId : String)
    (freshRoomId selfUserId : String) :
    Except String (String × ClientState) :=
  if st.hasClient = false then .error "Client not initialized"
  else
    match st.rooms.find? (isBotDM botUserId) with
    | some room => .ok (room.roomId, st)
    | none =>
      .ok (freshRoomId,
        { st with rooms := st.rooms ++
            [{ roomId := freshRoomId, joinedMembers := [⟨selfUserId⟩] }] })

/-- Network operations a send can perform, recorded as a trace. -/
inductive NetOp where
  | sendText (roomId text : String)
  | fetchUri (uri : String)
  | uploadContent (filename : String)
  | sendImageMessage (roomId filename : String)
deriving DecidableEq, Repr

/-- sendMessage: throws before any network call when the client is
null; otherwise performs the text send.  `serverEventId` stands for the
event id the server assigns. -/
def sendMessage (st : ClientState) (roomId text serverEventId : String) :
    Except String String × List NetOp × ClientState :=
  if st.hasClient = false then (.error "Client not initialized", [], st)
  else (.ok serverEventId, [NetOp.sendText roomId text], st)

/-- sendImage: throws before any network call when the client is null;
otherwise fetches the image, uploads it, and sends the image message. -/
def sendImage (st : ClientState) (roomId uri filename serverEventId : String) :
    Except String String × List NetOp × ClientState :=
  if st.hasClient = false then (.error "Client not initialized", [], st)
  else (.ok serverEventId,
    [NetOp.fetchUri uri, NetOp.uploadContent filename,
     NetOp.sendImageMessage roomId filename], st)

/-- Own device keys as returned by getCrypto().getOwnDeviceKeys(). -/
structure OwnDeviceKeys where
  ed25519 : String
  curve25519 : String
deriving DecidableEq, Repr

/-- The client fields read by getDeviceFingerprint. -/
structure CryptoView where
  cryptoEnabled : Bool
  deviceId : Option String
  ownDeviceKeys : Option OwnDeviceKeys
deriving DecidableEq, Repr

/-- getDeviceFingerprint: null unless crypto is enabled, a device id is
present and truthy, and the own device ed25519 key is present and
truthy (in JS both the null check and the trailing `or null` treat the
empty string as absent). -/
def getDeviceFingerprint (c : CryptoView) : Option String :=
  if c.cryptoEnabled = false then none
  else
    match c.deviceId with
    | none => none
    | some d =>
      if d = "" then none
      else
        match c.ownDeviceKeys with
        | none => none
        | some device =>
          if device.ed25519 = "" then none else some device.ed25519

/-- The raw Rust-crypto initialization call, which can reject. -/
def initRustCrypto (cryptoInitFails : Bool) : Except String Unit :=
  if cryptoInitFails then .error "crypto init failed" else .ok ()

/-- The initialization steps performed by initializeClient, recorded in
execution order. -/
inductive InitStep where
  | tryInitRustCrypto
  | setupCryptoListeners
  | setupEventListeners
  | startClient
  | uploadKeys
deriving DecidableEq, Repr

/-- initializeClient: the E2EE block is wrapped in try/catch, so a
crypto failure only disables crypto; the client is started and the
initial sync awaited either way; key upload happens only when E2EE is
configured and crypto actually came up. -/
def initializeClient (enableE2EE cryptoInitFails : Bool) :
    Except String (Bool × List InitStep) :=
  let cryptoPart : Bool × List InitStep :=
    if enableE2EE then
      match initRustCrypto cryptoInitFails with
      | .ok _ => (true, [InitStep.tryInitRustCrypto, InitStep.setupCryptoListeners])
      | .error _ => (false, [InitStep.tryInitRustCrypto])
    else (false, [])
  .ok (cryptoPart.1,
    cryptoPart.2 ++ [InitStep.setupEventListeners, InitStep.startClient] ++
      (if enableE2EE && cryptoPart.1 then [InitStep.uploadKeys] else []))

/-- login: authenticate against the homeserver, then run the full
initialization sequence; an authentication failure is an error, but a
crypto failure inside initializeClient is not. -/
def login (authOk : Bool) (enableE2EE cryptoInitFails : Bool) :
    Except String (Bool × List InitStep) :=
  if authOk = false then .error "AuthError"
  else initializeClient enableE2EE cryptoInitFails

/-- The standalone bot variant initializeCrypto: returns false (and
never throws) when E2EE is disabled, when initRustCrypto rejects, or
when the key upload rejects; true only on full success. -/
def initializeCrypto (enableE2EE cryptoInitFails uploadFails : Bool) : Bool :=
  if enableE2EE = false then false
  else if cryptoInitFails then false
  else if uploadFails then false
  else true

theorem find?_first {α : Type} (p : α → Bool) :
    ∀ (l : List α) (a : α), l.find? p = some a →
      p a = true ∧ ∃ l₁ l₂, l = l₁ ++ a :: l₂ ∧ ∀ x ∈ l₁, p x = false := by
  intro l
  induction l with
  | nil => intro a h; simp [List.find?] at h
  | cons x xs ih =>
    intro a h
    by_cases hx : p x = true
    · rw [List.find?_cons_of_pos _ hx] at h
      cases h
      exact ⟨hx, [], xs, rfl, by simp⟩
    · rw [List.find?_cons_of_neg _ hx] at h
      obtain ⟨hpa, l₁, l₂, hl, hall⟩ := ih a h
      refine ⟨hpa, x :: l₁, l₂, by rw [hl]; rfl, ?_⟩
      intro y hy
      rcases List.mem_cons.mp hy with hy | hy
      · subst hy; exact eq_false_of_ne_true hx
      · exact hall y hy

/-- C3: getOrCreateBotRoom is idempotent.  Whenever the room list
already contains a two-member DM with the peer, the call returns the
roomId of the first such room in enumeration order without changing the
state, and a second call with the same peer returns the same roomId and
again creates no room. -/
theorem getOrCreateBotRoom_idempotent
    (st : ClientState) (botUserId freshRoomId freshRoomId2 selfUserId : String)
    (hc : st.hasClient = true)
    (hex : ∃ room ∈ st.rooms, isBotDM botUserId room = true) :
    ∃ room,
      getOrCreateBotRoom st botUserId freshRoomId selfUserId =
        .ok (room.roomId, st) ∧
      getOrCreateBotRoom st botUserId freshRoomId2 selfUserId =
        .ok (room.roomId, st) ∧
      isBotDM botUserId room = true ∧
      (∃ l₁ l₂, st.rooms = l₁ ++ room :: l₂ ∧
        ∀ r ∈ l₁, isBotDM botUserId r = false) := by
  have hsome : (st.rooms.find? (isBotDM botUserId)).isSome := by
    rw [List.find?_isSome]
    obtain ⟨room, hmem, hdm⟩ := hex
    exact ⟨room, hmem, hdm⟩
  obtain ⟨room, hfind⟩ := Option.isSome_iff_exists.mp hsome
  obtain ⟨hdm, l₁, l₂, hl, hall⟩ := find?_first (isBotDM botUserId) st.rooms room hfind
  refine ⟨room, ?_, ?_, hdm, l₁, l₂, hl, hall⟩ <;>
    simp [getOrCreateBotRoom, hc, hfind]

/-- A concrete client state holding one two-member DM with the bot. -/
def exampleClientState : ClientState :=
  { hasClient := true
  , rooms := [{ roomId := "!dm:server"
              , joinedMembers := [⟨"@me:server"⟩, ⟨"@bot:server"⟩] }] }

/-- Witness for C3 at a concrete state holding a matching DM room. -/
theorem getOrCreateBotRoom_idempotent_witness :
    ∃ room,
      getOrCreateBotRoom exampleClientState "@bot:server" "!fresh:server"
          "@me:server" = .ok (room.roomId, exampleClientState) ∧
      getOrCreateBotRoom exampleClientState "@bot:server" "!fresh2:server"
          "@me:server" = .ok (room.roomId, exampleClientState) ∧
      isBotDM "@bot:server" room = true ∧
      (∃ l₁ l₂, exampleClientState.rooms = l₁ ++ room :: l₂ ∧
        ∀ r ∈ l₁, isBotDM "@bot:server" r = false) :=
  getOrCreateBotRoom_idempotent exampleClientState "@bot:server"
    "!fresh:server" "!fresh2:server" "@me:server" rfl
    ⟨{ roomId := "!dm:server"
     , joinedMembers := [⟨"@me:server"⟩, ⟨"@bot:server"⟩] },
      by simp [exampleClientState], by decide⟩

/-- C7: with no active session (this.client is null), sendMessage and
sendImage fail with the not-connected error, no network operation is
attempted (empty trace), and the client state is unchanged. -/
theorem send_without_session_fails
    (st : ClientState) (hc : st.hasClient = false)
    (roomId text uri filename eid : String) :
    sendMessage st roomId text eid = (.error "Client not initialized", [], st) ∧
    sendImage st roomId uri filename eid =
      (.error "Client not initialized", [], st) := by
  constructor <;> simp [sendMessage, sendImage, hc]

/-- Witness for C7 at the concrete disconnected state. -/
theorem send_without_session_fails_witness :
    sendMessage { hasClient := false, rooms := [] } "!r:s" "hi" "$e" =
      (.error "Client not initialized", [], { hasClient := false, rooms := [] }) ∧
    sendImage { hasClient := false, rooms := [] } "!r:s" "file:///img" "img.png" "$e" =
      (.error "Client not initialized", [], { hasClient := false, rooms := [] }) :=
  send_without_session_fails { hasClient := false, rooms := [] } rfl
    "!r:s" "hi" "file:///img" "img.png" "$e"

/-- C9: getDeviceFingerprint returns none exactly when encryption is
unavailable — crypto disabled, no (truthy) device id, or no (truthy)
own device ed25519 key — and otherwise returns the nonempty ed25519
fingerprint string. -/
theorem getDeviceFingerprint_none_iff (c : CryptoView) :
    (getDeviceFingerprint c = none ↔
      c.cryptoEnabled = false ∨ c.deviceId = none ∨ c.deviceId = some "" ∨
      c.ownDeviceKeys = none ∨
      (∃ device, c.ownDeviceKeys = some device ∧ device.ed25519 = "")) ∧
    (∀ s, getDeviceFingerprint c = some s →
      s ≠ "" ∧ ∃ device, c.ownDeviceKeys = some device ∧ device.ed25519 = s) := by
  obtain ⟨ce, cdev, ckeys⟩ := c
  cases ce with
  | false => simp [getDeviceFingerprint]
  | true =>
    cases cdev with
    | none => simp [getDeviceFingerprint]
    | some d =>
      cases ckeys with
      | none => by_cases hd : d = "" <;> simp [getDeviceFingerprint, hd]
      | some device =>
        by_cases hd : d = ""
        · simp [getDeviceFingerprint, hd]
        · by_cases hed : device.ed25519 = ""
          · simp [getDeviceFingerprint, hd, hed]
          · constructor
            · simp [getDeviceFingerprint, hd, hed]
            · intro s hs
              simp [getDeviceFingerprint, hd, hed] at hs
              subst hs
              exact ⟨hed, device, rfl, rfl⟩

/-- Witness for C9: a crypto-disabled view yields none; a fully
available view yields the ed25519 fingerprint. -/
theorem getDeviceFingerprint_none_iff_witness :
    getDeviceFingerprint
      { cryptoEnabled := false, deviceId := some "DEV", ownDeviceKeys := none } =
      none ∧
    (getDeviceFingerprint
      { cryptoEnabled := true, deviceId := some "DEV"
      , ownDeviceKeys := some { ed25519 := "fp", curve25519 := "ck" } } =
        some "fp" →
      "fp" ≠ "") :=
  ⟨(getDeviceFingerprint_none_iff
      { cryptoEnabled := false, deviceId := some "DEV"
      , ownDeviceKeys := none }).1.mpr (Or.inl rfl),
   fun h => ((getDeviceFingerprint_none_iff
      { cryptoEnabled := true, deviceId := some "DEV"
      , ownDeviceKeys := some { ed25519 := "fp", curve25519 := "ck" } }).2
        "fp" h).1⟩

/-- C6: a crypto-initialization failure is non-fatal.  initRustCrypto
rejecting makes initializeClient continue without encryption: it still
succeeds, crypto ends up disabled, the client is started, and the
enclosing login succeeds; the standalone bot variant likewise returns
false instead of throwing. -/
theorem cryptoInitFailure_nonfatal
    (enableE2EE authOk : Bool) (hauth : authOk = true) :
    initRustCrypto true = .error "crypto init failed" ∧
    (∃ r, initializeClient enableE2EE true = .ok r ∧ r.1 = false ∧
      InitStep.startClient ∈ r.2 ∧ InitStep.uploadKeys ∉ r.2) ∧
    (∃ r, login authOk enableE2EE true = .ok r ∧ r.1 = false) ∧
    initializeCrypto true true false = false := by
  subst hauth
  refine ⟨rfl, ?_, ?_, rfl⟩ <;> cases enableE2EE <;>
    simp [initializeClient, login, initRustCrypto]

/-- Witness for C6 with E2EE configured on and authentication passing. -/
theorem cryptoInitFailure_nonfatal_witness :
    initRustCrypto true = .error "crypto init failed" ∧
    (∃ r, initializeClient true true = .ok r ∧ r.1 = false ∧
      InitStep.startClient ∈ r.2 ∧ InitStep.uploadKeys ∉ r.2) ∧
    (∃ r, login true true true = .ok r ∧ r.1 = false) ∧
    initializeCrypto true true false = false :=
  cryptoInitFailure_nonfatal true true rfl

/-! ## Timeline event processing — the RoomEvent.Timeline listener and
eventToMessage of ClawChatClient. -/

/-- An SDK timeline event as the listener sees it.  `wireType` is the
type of the raw event (m.room.encrypted for encrypted events),
`sessionKnown` whether key material for its session id is available,
and the `clear*` fields are the decrypted payload when decryption can
succeed. -/
structure SdkEvent where
  eventId : String
  sender : String
  wireType : String
  encrypted : Bool
  sessionKnown : Bool
  clearType : String
  clearBody : Option String
  clearMsgtype : String
  timestamp : Nat
  verifiedFlag : Bool
deriving DecidableEq, Repr

/-- The clear content a getType/getContent call observes. -/
structure ClearContent where
  evType : String
  body : Option String
  msgtype : String
deriving DecidableEq, Repr

/-- The marker body the SDK substitutes for an undecryptable event. -/
def undecryptableBody : String := "** Unable to decrypt **"

/-- Modelled from the matrix-js-sdk interface contract (the SDK is an
external collaborator, not code of this repository): attempting to
decrypt an encrypted event whose session id is unknown does not throw;
it replaces the clear content with an m.room.message event carrying the
msgtype m.bad.encrypted and the undecryptable marker body.  Successful
decryption exposes the plaintext payload; without crypto, and for
plaintext events, the wire content is observed unchanged.  The
decryptEventIfNeeded call in the listener is wrapped in try/catch, so a
decryption error can never propagate out of the listener; accordingly
the processing functions below are total. -/
def decryptedView (cryptoEnabled : Bool) (e : SdkEvent) : ClearContent :=
  if e.encrypted && cryptoEnabled then
    if e.sessionKnown then
      { evType := e.clearType, body := e.clearBody, msgtype := e.clearMsgtype }
    else
      { evType := "m.room.message", body := some undecryptableBody
      , msgtype := "m.bad.encrypted" }
  else { evType := e.wireType, body := e.clearBody, msgtype := e.clearMsgtype }

/-- getMessageType: map a Matrix msgtype to the Message kind. -/
def getMessageType (msgtype : String) : String :=
  if msgtype = "m.image" then "image"
  else if msgtype = "m.file" then "file"
  else if msgtype = "m.notice" then "notice"
  else "text"

/-- eventToMessage: null when the content has no body, otherwise the
Message handed to the UI.  `memberName` models room.getMember(...).name
and `ownUserId` models this.client?.getUserId(). -/
def eventToMessage (cryptoEnabled : Bool) (e : SdkEvent) (roomId : String)
    (memberName : String → Option String) (ownUserId : Option String) :
    Option Message :=
  let content := decryptedView cryptoEnabled e
  match content.body with
  | none => none
  | some b =>
    some { id := e.eventId
         , roomId := roomId
         , sender := e.sender
         , senderName := (memberName e.sender).getD e.sender
         , body := b
         , timestamp := e.timestamp
         , msgKind := getMessageType content.msgtype
         , isMe := ownUserId == some e.sender
         , encrypted := e.encrypted
         , verified := e.verifiedFlag }

/-- The body of the RoomEvent.Timeline listener: skip events prepended
to the start of the timeline and events whose (post-decryption) type is
not m.room.message; otherwise hand the mapped Message to the callback. -/
def processTimelineEvent (cryptoEnabled toStartOfTimeline : Bool)
    (e : SdkEvent) (roomId : String) (memberName : String → Option String)
    (ownUserId : Option String) : Option Message :=
  if toStartOfTimeline then none
  else if (decryptedView cryptoEnabled e).evType ≠ "m.room.message" then none
  else eventToMessage cryptoEnabled e roomId memberName ownUserId

/-- Processing of a whole live sync batch: each event is processed in
order and the produced messages are delivered to the callback. -/
def processBatch (cryptoEnabled : Bool) (events : List SdkEvent)
    (roomId : String) (memberName : String → Option String)
    (ownUserId : Option String) : List Message :=
  events.filterMap
    (fun e => processTimelineEvent cryptoEnabled false e roomId memberName ownUserId)

/-- C4: an inbound encrypted timeline event whose session id is unknown
is surfaced as a Message with the encrypted flag set and the
undecryptable marker body; it is neither dropped nor does it abort the
processing of the other events in the batch. -/
theorem undecryptable_event_surfaced
    (e : SdkEvent) (roomId : String) (memberName : String → Option String)
    (ownUserId : Option String)
    (henc : e.encrypted = true) (hunk : e.sessionKnown = false)
    (pre post : List SdkEvent) :
    ∃ m : Message,
      processTimelineEvent true false e roomId memberName ownUserId = some m ∧
      m.encrypted = true ∧
      m.body = undecryptableBody ∧
      m.id = e.eventId ∧
      processBatch true (pre ++ e :: post) roomId memberName ownUserId =
        processBatch true pre roomId memberName ownUserId ++
          m :: processBatch true post roomId memberName ownUserId := by
  have hview : decryptedView true e =
      { evType := "m.room.message", body := some undecryptableBody
      , msgtype := "m.bad.encrypted" } := by
    simp [decryptedView, henc, hunk]
  have hproc : processTimelineEvent true false e roomId memberName ownUserId =
      some { id := e.eventId
           , roomId := roomId
           , sender := e.sender
           , senderName := (memberName e.sender).getD e.sender
           , body := undecryptableBody
           , timestamp := e.timestamp
           , msgKind := "text"
           , isMe := ownUserId == some e.sender
           , encrypted := e.encrypted
           , verified := e.verifiedFlag } := by
    simp [processTimelineEvent, hview, eventToMessage, getMessageType,
      undecryptableBody]
  refine ⟨_, hproc, henc, rfl, rfl, ?_⟩
  simp only [processBatch, List.filterMap_append, List.filterMap_cons, hproc]

/-- Witness for C4 at a concrete undecryptable event inside a batch. -/
theorem undecryptable_event_surfaced_witness :
    ∃ m : Message,
      processTimelineEvent true false
        { eventId := "$bad", sender := "@bot:server"
        , wireType := "m.room.encrypted", encrypted := true
        , sessionKnown := false, clearType := "m.room.message"
        , clearBody := none, clearMsgtype := "m.text"
        , timestamp := 7, verifiedFlag := false }
        "!r:s" (fun _ => none) (some "@me:server") = some m ∧
      m.encrypted = true ∧
      m.body = undecryptableBody ∧
      m.id = "$bad" ∧
      processBatch true
          ([] ++
            { eventId := "$bad", sender := "@bot:server"
            , wireType := "m.room.encrypted", encrypted := true
            , sessionKnown := false, clearType := "m.room.message"
            , clearBody := none, clearMsgtype := "m.text"
            , timestamp := 7, verifiedFlag := false } :: [])
          "!r:s" (fun _ => none) (some "@me:server") =
        processBatch true [] "!r:s" (fun _ => none) (some "@me:server") ++
          m :: processBatch true [] "!r:s" (fun _ => none) (some "@me:server") :=
  undecryptable_event_surfaced
    { eventId := "$bad", sender := "@bot:server"
    , wireType := "m.room.encrypted", encrypted := true
    , sessionKnown := false, clearType := "m.room.message"
    , clearBody := none, clearMsgtype := "m.text"
    , timestamp := 7, verifiedFlag := false }
    "!r:s" (fun _ => none) (some "@me:server") rfl rfl [] []

end Client

/-! ## Crypto manager — from the standalone CryptoManager module. -/

namespace Crypto

/-- Device identity keys. -/
structure DeviceKeys where
  deviceId : String
  curve25519 : String
  ed25519 : String
deriving DecidableEq, Repr

/-! The placeholder encryption encodes the plaintext with base64
(Buffer.toString with base64) and decryption decodes it.  The plaintext
is modelled as its byte sequence.  The encoder and decoder below follow
RFC 4648: three bytes become four alphabet characters, with `=` padding
for a final group of one or two bytes. -/

/-- The base64 alphabet. -/
def b64Alphabet : List Char :=
  "ABCDEFGHIJKLMNOPQRSTUVWXYZabcdefghijklmnopqrstuvwxyz0123456789+/".toList

/-- The alphabet character of a 6-bit value. -/
def b64Char (n : Nat) : Char := b64Alphabet.getD n 'A'

/-- The 6-bit value of an alphabet character. -/
def b64Index (c : Char) : Nat := b64Alphabet.indexOf c

/-- Base64-encode a byte sequence. -/
def base64Encode : List Nat → List Char
  | [] => []
  | [a] => [b64Char (a / 4), b64Char (a % 4 * 16), '=', '=']
  | [a, b] => [b64Char (a / 4), b64Char (a % 4 * 16 + b / 16),
               b64Char (b % 16 * 4), '=']
  | a :: b :: c :: rest =>
      b64Char (a / 4) :: b64Char (a % 4 * 16 + b / 16) ::
      b64Char (b % 16 * 4 + c / 64) :: b64Char (c % 64) :: base64Encode rest

/-- Base64-decode a character sequence (well-formed input: groups of
four characters with padding only in the final group). -/
def base64Decode : List Char → List Nat
  | c1 :: c2 :: c3 :: c4 :: rest =>
      if c3 = '=' then [b64Index c1 * 4 + b64Index c2 / 16]
      else if c4 = '=' then
        [b64Index c1 * 4 + b64Index c2 / 16,
         b64Index c2 % 16 * 16 + b64Index c3 / 4]
      else
        (b64Index c1 * 4 + b64Index c2 / 16) ::
        (b64Index c2 % 16 * 16 + b64Index c3 / 4) ::
        (b64Index c3 % 4 * 64 + b64Index c4) :: base64Decode rest
  | _ => []

theorem b64Index_b64Char : ∀ n < 64, b64Index (b64Char n) = n := by decide

theorem b64Char_ne_pad : ∀ n < 64, b64Char n ≠ '=' := by decide

theorem base64_roundtrip :
    ∀ bs : List Nat, (∀ b ∈ bs, b < 256) →
      base64Decode (base64Encode bs) = bs := by
  intro bs
  induction bs using base64Encode.induct with
  | case1 => intro _; rfl
  | case2 a =>
    intro h
    have ha : a < 256 := h a (by simp)
    rw [base64Encode, base64Decode]
    rw [if_pos rfl]
    rw [b64Index_b64Char (a / 4) (by omega),
        b64Index_b64Char (a % 4 * 16) (by omega)]
    simp only [List.cons.injEq, and_true]
    omega
  | case3 a b =>
    intro h
    have ha : a < 256 := h a (by simp)
    have hb : b < 256 := h b (by simp)
    rw [base64Encode, base64Decode]
    rw [if_neg (b64Char_ne_pad (b % 16 * 4) (by omega))]
    rw [if_pos rfl]
    rw [b64Index_b64Char (a / 4) (by omega),
        b64Index_b64Char (a % 4 * 16 + b / 16) (by omega),
        b64Index_b64Char (b % 16 * 4) (by omega)]
    simp only [List.cons.injEq, and_true]
    omega
  | case4 a b c rest ih =>
    intro h
    have ha : a < 256 := h a (by simp)
    have hb : b < 256 := h b (by simp)
    have hc : c < 256 := h c (by simp)
    rw [base64Encode, base64Decode]
    rw [if_neg (b64Char_ne_pad (b % 16 * 4 + c / 64) (by omega))]
    rw [if_neg (b64Char_ne_pad (c % 64) (by omega))]
    rw [b64Index_b64Char (a / 4) (by omega),
        b64Index_b64Char (a % 4 * 16 + b / 16) (by omega),
        b64Index_b64Char (b % 16 * 4 + c / 64) (by omega),
        b64Index_b64Char (c % 64) (by omega)]
    rw [ih (fun x hx => h x (by simp [hx]))]
    simp only [List.cons.injEq, and_true]
    omega

/-- The encrypted payload produced for a room message. -/
structure EncryptedPayload where
  algorithm : String
  senderKey : String
  ciphertext : List Char
  sessionId : String
  deviceId : String
deriving DecidableEq, Repr

/-- The CryptoManager state: device identity keys (none before
initialize), the per-room session-id map, and the ordered set of
verified device keys (entries of the form userId:deviceId). -/
structure CryptoState where
  deviceKeys : Option DeviceKeys
  sessionKeys : String → Option String
  verifiedDevices : List String

/-- createMegolmSession: the session id derived from the room and the
current time. -/
def createMegolmSession (roomId : String) (now : Nat) : String :=
  "session_" ++ roomId ++ "_" ++ toString now

/-- The externally visible operations encryptMessage performs, in
order. -/
inductive CryptoOp where
  | shareSessionKey (roomId sessionId : String) (recipients : List DeviceKeys)
  | megolmEncrypt (roomId sessionId : String) (ciphertext : List Char)
deriving DecidableEq, Repr

/-- encryptMessage: throws when device keys are not initialized; reuses
the cached session id for the room when one exists, otherwise creates a
session, caches it, and shares the session key with every supplied
recipient device before the ciphertext is produced.  `now` models
Date.now(). -/
def encryptMessage (st : CryptoState) (roomId : String) (content : List Nat)
    (recipientKeys : List DeviceKeys) (now : Nat) :
    Except String (CryptoState × EncryptedPayload × List CryptoOp) :=
  match st.deviceKeys with
  | none => .error "Crypto not initialized"
  | some dk =>
    let step : String × CryptoState × List CryptoOp :=
      match st.sessionKeys roomId with
      | some sid => (sid, st, [])
      | none =>
        let sid := createMegolmSession roomId now
        (sid,
         { st with sessionKeys :=
             fun r => if r = roomId then some sid else st.sessionKeys r },
         [CryptoOp.shareSessionKey roomId sid recipientKeys])
    let ciphertext := base64Encode content
    .ok (step.2.1,
      { algorithm := "m.megolm.v1.aes-sha2"
      , senderKey := dk.curve25519
      , ciphertext := ciphertext
      , sessionId := step.1
      , deviceId := dk.deviceId },
      step.2.2 ++ [CryptoOp.megolmEncrypt roomId step.1 ciphertext])

/-- decryptMessage: base64-decode the ciphertext. -/
def decryptMessage (payload : EncryptedPayload) : List Nat :=
  base64Decode payload.ciphertext

/-- verifyDevice: add userId:deviceId to the verified set (a JS Set:
adding an existing element is a no-op). -/
def verifyDevice (st : CryptoState) (userId deviceId : String) : CryptoState :=
  let key := userId ++ ":" ++ deviceId
  { st with verifiedDevices :=
      if key ∈ st.verifiedDevices then st.verifiedDevices
      else st.verifiedDevices ++ [key] }

/-- isDeviceVerified: membership in the verified set. -/
def isDeviceVerified (st : CryptoState) (userId deviceId : String) : Bool :=
  decide ((userId ++ ":" ++ deviceId) ∈ st.verifiedDevices)

/-- initialize: load stored device keys, or generate and store fresh
ones; the other fields are untouched. -/
def initializeKeys (st : CryptoState) (stored : Option DeviceKeys)
    (fresh : DeviceKeys) : CryptoState :=
  match stored with
  | some dk => { st with deviceKeys := some dk }
  | none => { st with deviceKeys := some fresh }

/-- The decoded content of a key backup, as importKeys reads it after
parsing. -/
structure KeyBackup where
  deviceKeys : DeviceKeys
  sessionKeys : String → Option String
  verifiedDevices : List String

/-- importKeys: replace the whole manager state with the backup
contents. -/
def importKeys (_st : CryptoState) (backup : KeyBackup) : CryptoState :=
  { deviceKeys := some backup.deviceKeys
  , sessionKeys := backup.sessionKeys
  , verifiedDevices := backup.verifiedDevices }

/-- Sample device keys for concrete instantiations. -/
def sampleDeviceKeys : DeviceKeys :=
  { deviceId := "DEV1", curve25519 := "curve25519_DEV1", ed25519 := "ed25519_DEV1" }

/-- A crypto state with initialized device keys and no sessions. -/
def freshCryptoState : CryptoState :=
  { deviceKeys := some sampleDeviceKeys
  , sessionKeys := fun _ => none
  , verifiedDevices := [] }

/-- C2: the first encryptMessage call for a room with no cached session
performs exactly one key-distribution step — a shareSessionKey to the
supplied recipient device keys — before the ciphertext is produced, and
caches the session id; a subsequent call for the same room reuses that
session id and performs no key distribution. -/
theorem first_encrypt_shares_key_once
    (st : CryptoState) (dk : DeviceKeys) (hdk : st.deviceKeys = some dk)
    (roomId : String) (hnew : st.sessionKeys roomId = none)
    (content content2 : List Nat) (recipients recipients2 : List DeviceKeys)
    (now now2 : Nat) :
    ∃ st2 payload ops,
      encryptMessage st roomId content recipients now = .ok (st2, payload, ops) ∧
      ops = [CryptoOp.shareSessionKey roomId payload.sessionId recipients,
             CryptoOp.megolmEncrypt roomId payload.sessionId
               (base64Encode content)] ∧
      st2.sessionKeys roomId = some payload.sessionId ∧
      (∃ payload2 ops2,
        encryptMessage st2 roomId content2 recipients2 now2 =
          .ok (st2, payload2, ops2) ∧
        payload2.sessionId = payload.sessionId ∧
        ops2 = [CryptoOp.megolmEncrypt roomId payload.sessionId
                  (base64Encode content2)]) := by
  refine ⟨{ st with sessionKeys := fun r =>
        if r = roomId then some (createMegolmSession roomId now)
        else st.sessionKeys r },
    { algorithm := "m.megolm.v1.aes-sha2"
    , senderKey := dk.curve25519
    , ciphertext := base64Encode content
    , sessionId := createMegolmSession roomId now
    , deviceId := dk.deviceId },
    [CryptoOp.shareSessionKey roomId (createMegolmSession roomId now) recipients,
     CryptoOp.megolmEncrypt roomId (createMegolmSession roomId now)
       (base64Encode content)],
    ?_, rfl, by simp,
    { algorithm := "m.megolm.v1.aes-sha2"
    , senderKey := dk.curve25519
    , ciphertext := base64Encode content2
    , sessionId := createMegolmSession roomId now
    , deviceId := dk.deviceId },
    [CryptoOp.megolmEncrypt roomId (createMegolmSession roomId now)
       (base64Encode content2)],
    ?_, rfl, rfl⟩
  · simp [encryptMessage, hdk, hnew]
  · simp [encryptMessage, hdk]

/-- Witness for C2 at a fresh crypto state and a concrete room. -/
theorem first_encrypt_shares_key_once_witness :
    ∃ st2 payload ops,
      encryptMessage freshCryptoState "!r:s" [72, 105] [sampleDeviceKeys] 1000 =
        .ok (st2, payload, ops) ∧
      ops = [CryptoOp.shareSessionKey "!r:s" payload.sessionId [sampleDeviceKeys],
             CryptoOp.megolmEncrypt "!r:s" payload.sessionId
               (base64Encode [72, 105])] ∧
      st2.sessionKeys "!r:s" = some payload.sessionId ∧
      (∃ payload2 ops2,
        encryptMessage st2 "!r:s" [33] [] 2000 = .ok (st2, payload2, ops2) ∧
        payload2.sessionId = payload.sessionId ∧
        ops2 = [CryptoOp.megolmEncrypt "!r:s" payload.sessionId
                  (base64Encode [33])]) :=
  first_encrypt_shares_key_once freshCryptoState sampleDeviceKeys rfl
    "!r:s" rfl [72, 105] [33] [sampleDeviceKeys] [] 1000 2000

/-- A crypto state with no device keys, sessions, or verified devices. -/
def emptyCryptoState : CryptoState :=
  { deviceKeys := none, sessionKeys := fun _ => none, verifiedDevices := [] }

/-- A backup carrying no verified devices. -/
def emptyBackup : KeyBackup :=
  { deviceKeys := sampleDeviceKeys
  , sessionKeys := fun _ => none
  , verifiedDevices := [] }

/-- Counterexample to C5 as stated: importKeys is an operation of the
crypto manager that replaces the verified set with the backup contents,
so restoring a backup that lacks a previously verified device un-marks
its trust. -/
theorem verifyDevice_monotone_counterexample :
    isDeviceVerified (verifyDevice emptyCryptoState "@bob:server" "DEV9")
      "@bob:server" "DEV9" = true ∧
    isDeviceVerified
      (importKeys (verifyDevice emptyCryptoState "@bob:server" "DEV9")
        emptyBackup)
      "@bob:server" "DEV9" = false := by
  constructor <;> decide

/-- C5 amended: verifyDevice is idempotent and marks trust, and no
operation other than importKeys ever removes a pair from the verified
set — initialize and encryptMessage leave it unchanged — while
importKeys replaces it wholesale with the backup contents. -/
theorem verifyDevice_idempotent_monotone
    (st : CryptoState) (userId deviceId u d : String)
    (stored : Option DeviceKeys) (fresh : DeviceKeys)
    (roomId : String) (content : List Nat) (recipients : List DeviceKeys)
    (now : Nat) (backup : KeyBackup) :
    verifyDevice (verifyDevice st userId deviceId) userId deviceId =
      verifyDevice st userId deviceId ∧
    isDeviceVerified (verifyDevice st userId deviceId) userId deviceId = true ∧
    (isDeviceVerified st u d = true →
      isDeviceVerified (verifyDevice st userId deviceId) u d = true) ∧
    (initializeKeys st stored fresh).verifiedDevices = st.verifiedDevices ∧
    (∀ st2 p ops,
      encryptMessage st roomId content recipients now = .ok (st2, p, ops) →
      st2.verifiedDevices = st.verifiedDevices) ∧
    (importKeys st backup).verifiedDevices = backup.verifiedDevices := by
  refine ⟨?_, ?_, ?_, ?_, ?_, rfl⟩
  · by_cases hk : (userId ++ ":" ++ deviceId) ∈ st.verifiedDevices
    · simp [verifyDevice, hk]
    · simp [verifyDevice, hk]
  · by_cases hk : (userId ++ ":" ++ deviceId) ∈ st.verifiedDevices
    · simp [verifyDevice, isDeviceVerified, hk]
    · simp [verifyDevice, isDeviceVerified, hk]
  · intro hv
    rw [isDeviceVerified, decide_eq_true_iff] at hv
    by_cases hk : (userId ++ ":" ++ deviceId) ∈ st.verifiedDevices
    · simpa [verifyDevice, isDeviceVerified, hk] using hv
    · simp [verifyDevice, isDeviceVerified, hk]
      exact Or.inl hv
  · cases stored <;> rfl
  · intro st2 p ops h
    cases hdk : st.deviceKeys with
    | none => simp [encryptMessage, hdk] at h
    | some dk =>
      cases hsk : st.sessionKeys roomId with
      | none =>
        simp [encryptMessage, hdk, hsk] at h
        rw [← h.1]
      | some sid =>
        simp [encryptMessage, hdk, hsk] at h
        rw [← h.1]

/-- Witness for the amended C5 at a concrete state and device pair. -/
theorem verifyDevice_idempotent_monotone_witness :
    verifyDevice (verifyDevice emptyCryptoState "@bob:server" "DEV9")
        "@bob:server" "DEV9" =
      verifyDevice emptyCryptoState "@bob:server" "DEV9" ∧
    isDeviceVerified (verifyDevice emptyCryptoState "@bob:server" "DEV9")
      "@bob:server" "DEV9" = true := by
  have h := verifyDevice_idempotent_monotone emptyCryptoState
    "@bob:server" "DEV9" "@bob:server" "DEV9" none sampleDeviceKeys
    "!r:s" [72] [] 1000 emptyBackup
  exact ⟨h.1, h.2.1⟩

/-- C10: the placeholder encryption is lossless — decryptMessage returns
exactly the plaintext bytes that encryptMessage encoded, for any
initialized crypto state. -/
theorem encrypt_decrypt_roundtrip
    (st : CryptoState) (dk : DeviceKeys) (hdk : st.deviceKeys = some dk)
    (roomId : String) (content : List Nat) (hbytes : ∀ b ∈ content, b < 256)
    (recipients : List DeviceKeys) (now : Nat) :
    ∃ st2 payload ops,
      encryptMessage st roomId content recipients now = .ok (st2, payload, ops) ∧
      decryptMessage payload = content := by
  cases hsk : st.sessionKeys roomId with
  | some sid =>
    refine ⟨st,
      { algorithm := "m.megolm.v1.aes-sha2"
      , senderKey := dk.curve25519
      , ciphertext := base64Encode content
      , sessionId := sid
      , deviceId := dk.deviceId },
      [CryptoOp.megolmEncrypt roomId sid (base64Encode content)],
      by simp [encryptMessage, hdk, hsk], ?_⟩
    simpa [decryptMessage] using base64_roundtrip content hbytes
  | none =>
    refine ⟨{ st with sessionKeys := fun r =>
          if r = roomId then some (createMegolmSession roomId now)
          else st.sessionKeys r },
      { algorithm := "m.megolm.v1.aes-sha2"
      , senderKey := dk.curve25519
      , ciphertext := base64Encode content
      , sessionId := createMegolmSession roomId now
      , deviceId := dk.deviceId },
      [CryptoOp.shareSessionKey roomId (createMegolmSession roomId now)
         recipients,
       CryptoOp.megolmEncrypt roomId (createMegolmSession roomId now)
         (base64Encode content)],
      by simp [encryptMessage, hdk, hsk], ?_⟩
    simpa [decryptMessage] using base64_roundtrip content hbytes

/-- Witness for C10 at a concrete plaintext ("Hi!" as bytes). -/
theorem encrypt_decrypt_roundtrip_witness :
    ∃ st2 payload ops,
      encryptMessage freshCryptoState "!r:s" [72, 105, 33] [sampleDeviceKeys]
        1000 = .ok (st2, payload, ops) ∧
      decryptMessage payload = [72, 105, 33] :=
  encrypt_decrypt_roundtrip freshCryptoState sampleDeviceKeys rfl "!r:s"
    [72, 105, 33] (by decide) [sampleDeviceKeys] 1000

end Crypto

/-! ## The standalone AI bot — its handleMessage handler. -/

namespace Bot

/-- One turn of a per-room conversation history. -/
structure ChatTurn where
  role : String
  content : String
deriving DecidableEq, Repr

/-- An incoming Matrix event as the bot sees it. -/
structure BotEvent where
  sender : String
  evType : String
  msgtype : String
  body : String
deriving DecidableEq, Repr

/-- The calls the handler makes against the transport and the agent
responder, in order. -/
inductive BotAction where
  | sendTyping (roomId : String) (typing : Bool)
  | completionRequest (history : List ChatTurn)
  | sendText (roomId text : String)
deriving DecidableEq, Repr

/-- The fixed apology text sent when the responder call fails (the
apostrophe is spelled via its character code). -/
def apologyMessage : String :=
  "I" ++ String.singleton (Char.ofNat 39) ++
    "m having trouble processing that right now. Please try again."

/-- The bot state: per-room conversation memory; none for a room the
map holds no entry for (an entry, once set, is a nonempty array). -/
structure BotState where
  conversations : String → Option (List ChatTurn)

/-- handleMessage: ignore own messages, non-message events and non-text
msgtypes.  The user turn is pushed onto the stored array in place, so a
room that already has an entry keeps that mutation even when the
responder later fails (a room with no entry gets a fresh unstored
array).  When the pushed array exceeds 20 turns, slice builds a fresh
capped array for the request, leaving the stored one at its pushed
value.  On success the capped history extended with the assistant turn
is stored and the reply sent; on failure the fixed apology text is sent
and nothing further is stored.  `apiResult` models the responder
outcome. -/
def handleMessage (st : BotState) (e : BotEvent) (roomId botUserId : String)
    (apiResult : Option String) : BotState × List BotAction :=
  if e.sender == botUserId then (st, [])
  else if e.evType != "m.room.message" then (st, [])
  else if e.msgtype != "m.text" then (st, [])
  else
    let stored := st.conversations roomId
    let pushed := stored.getD [] ++ [{ role := "user", content := e.body }]
    let stAfterPush : BotState :=
      match stored with
      | some _ =>
        { conversations := fun r =>
            if r = roomId then some pushed else st.conversations r }
      | none => st
    let history := if pushed.length > 20 then
        pushed.drop (pushed.length - 20)
      else pushed
    match apiResult with
    | some reply =>
      let newHistory := history ++ [{ role := "assistant", content := reply }]
      ({ conversations := fun r =>
           if r = roomId then some newHistory else st.conversations r },
       [BotAction.sendTyping roomId true,
        BotAction.completionRequest history,
        BotAction.sendTyping roomId false,
        BotAction.sendText roomId reply])
    | none =>
      (stAfterPush,
       [BotAction.sendTyping roomId true,
        BotAction.completionRequest history,
        BotAction.sendTyping roomId false,
        BotAction.sendText roomId apologyMessage])

theorem boundedHistory_spec (l : List ChatTurn) :
    (if l.length > 20 then l.drop (l.length - 20) else l).length ≤ 20 ∧
    (if l.length > 20 then l.drop (l.length - 20) else l) <:+ l := by
  by_cases hl : l.length > 20
  · rw [if_pos hl]
    exact ⟨by simp; omega, List.drop_suffix _ _⟩
  · rw [if_neg hl]
    exact ⟨by omega, List.suffix_refl _⟩

/-- C8: every history handed to the agent responder has at most 20
turns and is a suffix (the last turns) of the stored conversation with
the user turn pushed; and whenever the responder call fails, the
handler sends the fixed apology message to the room, while the stored
conversation keeps exactly the in-place push of the user turn (a room
with a stored entry gains that turn; a room without one stays
absent). -/
theorem bot_history_bounded_and_apology
    (st : BotState) (e : BotEvent) (roomId botUserId : String)
    (apiResult : Option String)
    (hsender : (e.sender == botUserId) = false)
    (htype : e.evType = "m.room.message")
    (hmsg : e.msgtype = "m.text") :
    (∀ h, BotAction.completionRequest h ∈
        (handleMessage st e roomId botUserId apiResult).2 →
      h.length ≤ 20 ∧
      h <:+ (st.conversations roomId).getD [] ++
        [{ role := "user", content := e.body }]) ∧
    (apiResult = none →
      BotAction.sendText roomId apologyMessage ∈
        (handleMessage st e roomId botUserId apiResult).2 ∧
      (∀ l, st.conversations roomId = some l →
        (handleMessage st e roomId botUserId apiResult).1.conversations
            roomId =
          some (l ++ [{ role := "user", content := e.body }])) ∧
      (st.conversations roomId = none →
        (handleMessage st e roomId botUserId apiResult).1 = st)) := by
  constructor
  · intro h hmem
    unfold handleMessage at hmem
    rw [hsender] at hmem
    simp only [htype, hmsg, bne_self_eq_false, Bool.false_eq_true, if_false] at hmem
    cases apiResult with
    | some reply =>
      simp only [List.mem_cons, List.not_mem_nil, or_false] at hmem
      rcases hmem with hmem | hmem | hmem | hmem
      · exact absurd hmem (by simp)
      · injection hmem with hh
        subst hh
        exact boundedHistory_spec _
      · exact absurd hmem (by simp)
      · exact absurd hmem (by simp)
    | none =>
      simp only [List.mem_cons, List.not_mem_nil, or_false] at hmem
      rcases hmem with hmem | hmem | hmem | hmem
      · exact absurd hmem (by simp)
      · injection hmem with hh
        subst hh
        exact boundedHistory_spec _
      · exact absurd hmem (by simp)
      · exact absurd hmem (by simp)
  · intro hnone
    subst hnone
    refine ⟨?_, ?_, ?_⟩
    · unfold handleMessage
      rw [hsender]
      simp [htype, hmsg]
    · intro l hl
      unfold handleMessage
      rw [hsender]
      simp [htype, hmsg, hl]
    · intro hl
      unfold handleMessage
      rw [hsender]
      simp [htype, hmsg, hl]

/-- A stored 25-turn conversation for concrete instantiation. -/
def sampleHistory : List ChatTurn :=
  (List.range 25).map (fun i => { role := "user", content := toString i })

/-- A bot state storing the 25-turn conversation for every room. -/
def sampleBotState : BotState :=
  { conversations := fun _ => some sampleHistory }

/-- A plain text event from another user. -/
def sampleBotEvent : BotEvent :=
  { sender := "@alice:server", evType := "m.room.message"
  , msgtype := "m.text", body := "hello" }

/-- Witness for C8: a concrete state holding 25 stored turns and a
failing responder call; the request history is bounded by 20 and the
failure path sends the apology while the stored conversation gains
exactly the pushed user turn. -/
theorem bot_history_bounded_and_apology_witness :
    (∀ h, BotAction.completionRequest h ∈
        (handleMessage sampleBotState sampleBotEvent "!r:s" "@bot:server"
          none).2 →
      h.length ≤ 20 ∧
      h <:+ (sampleBotState.conversations "!r:s").getD [] ++
        [{ role := "user", content := sampleBotEvent.body }]) ∧
    (none = (none : Option String) →
      BotAction.sendText "!r:s" apologyMessage ∈
        (handleMessage sampleBotState sampleBotEvent "!r:s" "@bot:server"
          none).2 ∧
      (∀ l, sampleBotState.conversations "!r:s" = some l →
        (handleMessage sampleBotState sampleBotEvent "!r:s" "@bot:server"
            none).1.conversations "!r:s" =
          some (l ++ [{ role := "user", content := sampleBotEvent.body }])) ∧
      (sampleBotState.conversations "!r:s" = none →
        (handleMessage sampleBotState sampleBotEvent "!r:s" "@bot:server"
          none).1 = sampleBotState)) :=
  bot_history_bounded_and_apology sampleBotState sampleBotEvent
    "!r:s" "@bot:server" none (by decide) rfl rfl

end Bot

end ClawChat
